import Mathlib

/-!
Verification of the snapshot testing library (FollowTheProcess/snapshot).

The development shallowly embeds the snapshot lifecycle engine:

* the serialization resolver (the priority-ordered capability dispatch of
  `SnapShotter.do` and the plain-text formatter `text.Formatter.Format`),
* the filter pipeline (`filter.pattern.ReplaceAll` applied in registration
  order),
* the path deriver (`testdata/snapshots/<name><ext>` with `/`-separated
  identity segments becoming directories),
* the snapshot store (an explicit file-system state with `os.Stat`,
  `os.ReadFile`, `os.WriteFile`, `os.MkdirAll`, `os.RemoveAll`),
* the comparator state machine (`Runner.Snap`), and
* the diff renderer (`prettyDiff`).

Byte strings are modelled as `List Char` (snapshots are text), paths as
lists of components. External collaborators that are not part of this
repository (the Go `regexp` engine backing filters, the `fmt` verbs for
floats, the terminal colour library) are abstracted exactly where the
source calls out to them; repository-internal packages whose sources are
absent (`internal/diff`, `internal/colour`) are modelled from the spec and
marked as such on their definitions.
-/

namespace Snapshot

/-- Bytes of a snapshot artifact, modelled at character level. -/
abbrev Bytes := List Char

/-- Normalisation of line endings: `bytes.ReplaceAll(b, "\r\n", "\n")`,
replacing every (leftmost, non-overlapping) occurrence of CRLF with LF. -/
def normCRLF : Bytes → Bytes
  | [] => []
  | '\r' :: '\n' :: rest => '\n' :: normCRLF rest
  | c :: rest => c :: normCRLF rest

/-- A registered filter: the compiled regular expression together with its
replacement template. The Go `regexp.ReplaceAll` call (global replace-all,
with `$`-references to capture groups expanded by the external regexp
engine) is abstracted as the function `apply` on the snapshot bytes. -/
structure Filter where
  apply : Bytes → Bytes

/-- The filter pipeline: the source loops over `s.filters` in registration
order, rebinding `content = filter.pattern.ReplaceAll(content, replacement)`
at each step, so later filters see the output of earlier ones. -/
def applyFilters (filters : List Filter) (content : Bytes) : Bytes :=
  filters.foldl (fun acc f => f.apply acc) content

/-- Primitive scalar kinds of the resolver case
`case string, []byte, int, ..., uintptr, bool, float32, float64, complex64,
complex128`. Integer kinds of every width/signedness share the `intV`
constructor (their `%v` rendering is the decimal numeral); float and
complex renderings are produced by the external `strconv` machinery and so
are carried opaquely. -/
inductive Primitive where
  | strV (s : Bytes)
  | bytesV (bs : List Nat)
  | intV (n : Int)
  | boolV (b : Bool)
  | floatV (rendered : Bytes)
  | complexV (rendered : Bytes)
  deriving DecidableEq

/-- Rendering of a decimal numeral for one byte of a `[]byte` value. -/
def natChars (n : Nat) : Bytes := (toString n).data

/-- Space-separated decimal rendering of the elements of a `[]byte`,
as produced inside the brackets of the `%v` verb. -/
def spaceSep : List Nat → Bytes
  | [] => []
  | [n] => natChars n
  | n :: rest => natChars n ++ ' ' :: spaceSep rest

/-- The `%v` rendering of a primitive scalar: the natural representation
of the value (strings verbatim, byte slices as a bracketed list of decimal
bytes, integers as decimal numerals, booleans as `true`/`false`). -/
def renderPrim : Primitive → Bytes
  | .strV s => s
  | .bytesV bs => '[' :: spaceSep bs ++ [']']
  | .intV n => (toString n).data
  | .boolV b => if b then "true".data else "false".data
  | .floatV rendered => rendered
  | .complexV rendered => rendered

/-- A Go value as seen by the resolver type switch: each field records
whether the dynamic type satisfies the corresponding capability, and with
what result. `snapper` is the custom `Snap() ([]byte, error)` method,
`jsonMarshaler` the result of `json.MarshalIndent` on a `json.Marshaler`
(the indented re-rendering is performed by the external `encoding/json`
package), `textMarshaler` the `MarshalText()` result, `stringer` the
`String()` result, `primitive` the exact-type primitive case, and
`goString` the `%#v` debug rendering every value possesses. -/
structure GoValue where
  snapper : Option (Except Bytes Bytes)
  jsonMarshaler : Option (Except Bytes Bytes)
  textMarshaler : Option (Except Bytes Bytes)
  stringer : Option Bytes
  primitive : Option Primitive
  goString : Bytes

/-- Fatal message produced when a capability method returns an error
(`tb.Fatalf("%T implements ... returned an error: %v", ...)`). -/
def capabilityErr (capability : String) (e : Bytes) : Bytes :=
  ("implements " ++ capability ++ " but it returned an error: ").data ++ e

/-- The serialization resolver `SnapShotter.do`: the priority-ordered type
switch choosing the first matching capability, followed by CRLF
normalisation and the filter pipeline on the captured bytes. The returned
flag records whether the generic-fallback warning
(`Snap: falling back to GoString ...`) was logged. -/
def doSnapshot (filters : List Filter) (v : GoValue) :
    Except Bytes (Bytes × Bool) :=
  match v.snapper with
  | some (.error e) => .error (capabilityErr "Snapper" e)
  | some (.ok content) => .ok (applyFilters filters (normCRLF content), false)
  | none =>
    match v.jsonMarshaler with
    | some (.error e) => .error (capabilityErr "json.Marshaler" e)
    | some (.ok content) => .ok (applyFilters filters (normCRLF content), false)
    | none =>
      match v.textMarshaler with
      | some (.error e) => .error (capabilityErr "encoding.TextMarshaler" e)
      | some (.ok content) => .ok (applyFilters filters (normCRLF content), false)
      | none =>
        match v.stringer with
        | some s => .ok (applyFilters filters (normCRLF s), false)
        | none =>
          match v.primitive with
          | some p => .ok (applyFilters filters (normCRLF (renderPrim p)), false)
          | none => .ok (applyFilters filters (normCRLF v.goString), true)

/-- The resolver as the spec words it: a chain of capability tests in
which the FIRST matching capability wins, ordered custom snapshot, then
structured (JSON-like) marshal rendered indented, then marshal-to-text,
then stringify, then the primitive-scalar rendering, then the generic
fallback (which alone logs a warning). Written for comparison with
`doSnapshot`, which is translated from the source. -/
def resolveSpec (filters : List Filter) (v : GoValue) :
    Except Bytes (Bytes × Bool) :=
  if h : v.snapper.isSome then
    match v.snapper.get h with
    | .ok content => .ok (applyFilters filters (normCRLF content), false)
    | .error e => .error (capabilityErr "Snapper" e)
  else if h : v.jsonMarshaler.isSome then
    match v.jsonMarshaler.get h with
    | .ok content => .ok (applyFilters filters (normCRLF content), false)
    | .error e => .error (capabilityErr "json.Marshaler" e)
  else if h : v.textMarshaler.isSome then
    match v.textMarshaler.get h with
    | .ok content => .ok (applyFilters filters (normCRLF content), false)
    | .error e => .error (capabilityErr "encoding.TextMarshaler" e)
  else if h : v.stringer.isSome then
    .ok (applyFilters filters (normCRLF (v.stringer.get h)), false)
  else if h : v.primitive.isSome then
    .ok (applyFilters filters (normCRLF (renderPrim (v.primitive.get h))), false)
  else
    .ok (applyFilters filters (normCRLF v.goString), true)

/-- The plain-text formatter `text.Formatter.Format`: the same dispatch
without the Snapper and JSON cases (TextMarshaler, then Stringer, then the
primitive list including `[]byte` under `%+v`, then the `%#v` fallback);
it performs no logging and no filtering of its own. -/
def textFormat (v : GoValue) : Except Bytes Bytes :=
  match v.textMarshaler with
  | some (.error e) => .error e
  | some (.ok content) => .ok content
  | none =>
    match v.stringer with
    | some s => .ok s
    | none =>
      match v.primitive with
      | some p => .ok (renderPrim p)
      | none => .ok v.goString

/-- A storage path, as the list of its `/`-separated components. -/
abbrev Path := List Bytes

/-- Splitting a name on `/`, as `filepath` does for subtest identities:
each separator starts a new component (`splitSlash "a/b"` is `[a, b]`,
and the empty name yields one empty component). -/
def splitSlash : Bytes → List Bytes
  | [] => [[]]
  | c :: rest =>
    if c = '/' then [] :: splitSlash rest
    else
      match splitSlash rest with
      | [] => [[c]]
      | seg :: segs => (c :: seg) :: segs

/-- Rendering a path back to a `/`-joined string (for log messages). -/
def joinPath : Path → Bytes
  | [] => []
  | [c] => c
  | c :: rest => c ++ '/' :: joinPath rest

/-- Whether `d` is an ancestor-or-self of `p` in the directory tree,
componentwise: `d` is an initial segment of `p`. -/
def leadsTo : Path → Path → Bool
  | [], _ => true
  | _ :: _, [] => false
  | a :: as, b :: bs => if a = b then leadsTo as bs else false

/-- All initial segments of a path, the directories `os.MkdirAll`
creates along it (including the root and the path itself). -/
def ancestorsOf : Path → List Path
  | [] => [[]]
  | c :: rest => [] :: (ancestorsOf rest).map (c :: ·)

/-- First-match association lookup of a file by its path. -/
def lookupFile : List (Path × Bytes) → Path → Option Bytes
  | [], _ => none
  | (k, b) :: rest, p => if k = p then some b else lookupFile rest p

/-- Whether a list of paths contains the given path. -/
def containsPath : List Path → Path → Bool
  | [], _ => false
  | q :: rest, p => if q = p then true else containsPath rest p

/-- The snapshot store: the files (path to bytes) and the directories
that currently exist. Everything the comparator touches on disk is
represented here. -/
structure FS where
  files : List (Path × Bytes)
  dirs : List Path
  deriving DecidableEq

/-- The store operation behind `fileExists` (`os.Stat` plus `IsDir`):
`ok true` for an existing file, an error for a path that exists but is a
directory, and `ok false` when nothing exists there. -/
def fileExists (fs : FS) (p : Path) : Except Bytes Bool :=
  if (lookupFile fs.files p).isSome then .ok true
  else if containsPath fs.dirs p then
    .error (joinPath p ++ " exists but is a directory, not a file".data)
  else .ok false

/-- The store operation `os.RemoveAll dir`: every file and directory at
or below `dir` is removed; removing something absent is not an error. -/
def removeAll (fs : FS) (d : Path) : FS where
  files := fs.files.filter fun kv => !leadsTo d kv.1
  dirs := fs.dirs.filter fun q => !leadsTo d q

/-- The store operation `os.MkdirAll dir`: `dir` and all its ancestors
now exist as directories. -/
def mkdirAll (fs : FS) (d : Path) : FS where
  files := fs.files
  dirs := ancestorsOf d ++ fs.dirs

/-- The store operation `os.WriteFile path bytes`: the full file contents
are overwritten (or the file created). The new entry is placed in front
and shadows any earlier entry for the same path under the first-match
lookup. -/
def writeFile (fs : FS) (p : Path) (b : Bytes) : FS where
  files := (p, b) :: fs.files
  dirs := fs.dirs

/-- Modelled from the spec: the external text-diff collaborator
`diff.Diff(labelOld, old, labelNew, new)` from the repository's
`internal/diff` package, whose source is not under `src/`. Per the spec it
is a black box returning no patch text when the inputs are equal, and
otherwise a unified-diff-style text labelled with both names and carrying
the content of both sides. -/
def diffModel (labelOld old labelNew new : Bytes) : Option Bytes :=
  if old = new then none
  else
    some ("--- ".data ++ labelOld ++ '\n' :: "+++ ".data ++ labelNew ++
      '\n' :: "- ".data ++ old ++ '\n' :: "+ ".data ++ new ++ ['\n'])

/-- Modelled from the spec: the colour reset code of the external colorize
collaborator, taken from the repository's `internal/colour` tests. -/
def colourReset : Bytes := "\x1b[000000m".data

/-- Modelled from the spec: `colorize(text, removal)`, wrapping the text
in the red escape code observed in the `internal/colour` tests. -/
def redSprint (s : Bytes) : Bytes := "\x1b[0;0031m".data ++ s ++ colourReset

/-- Modelled from the spec: `colorize(text, addition)`, wrapping the text
in the green escape code observed in the `internal/colour` tests. -/
def greenSprint (s : Bytes) : Bytes := "\x1b[0;0032m".data ++ s ++ colourReset

/-- Modelled from the spec: `colorize(text, header)`, wrapping the text in
the bold-cyan escape code observed in the `internal/colour` tests. -/
def headerSprint (s : Bytes) : Bytes := "\x1b[1;0036m".data ++ s ++ colourReset

/-- Go `unicode.IsSpace` restricted to the ASCII whitespace characters
(space, tab, newline, vertical tab, form feed, carriage return). -/
def isSpaceGo (c : Char) : Bool :=
  c = ' ' || c = '\t' || c = '\n' || c = Char.ofNat 11 || c = Char.ofNat 12 || c = '\r'

/-- Go `strings.TrimSpace`: leading and trailing whitespace removed. -/
def trimSpaceGo (s : Bytes) : Bytes :=
  ((s.dropWhile isSpaceGo).reverse.dropWhile isSpaceGo).reverse

/-- Go `strings.HasPrefix`: whether the second list starts with the
first. -/
def startsWithL : Bytes → Bytes → Bool
  | [], _ => true
  | _ :: _, [] => false
  | p :: ps, c :: cs => if p = c then startsWithL ps cs else false

/-- Go `strings.Split(s, "\n")`: the list of lines, each separator
starting a new (possibly empty) element. -/
def splitNL : Bytes → List Bytes
  | [] => [[]]
  | c :: rest =>
    if c = '\n' then [] :: splitNL rest
    else
      match splitNL rest with
      | [] => [[c]]
      | seg :: segs => (c :: seg) :: segs

/-- Go `strings.Join(lines, "\n")`. -/
def joinNL : List Bytes → Bytes
  | [] => []
  | [l] => l
  | l :: rest => l ++ '\n' :: joinNL rest

/-- The per-line body of the `prettyDiff` loop, translated from the
source: the trimmed form is computed once from the original line, and the
three recolouring conditionals are then applied in sequence, each
rebinding the line. -/
def colourLine (line : Bytes) : Bytes :=
  let trimmed := trimSpaceGo line
  let l1 :=
    if startsWithL ['-', '-', '-'] trimmed || startsWithL ['-', ' '] trimmed
    then redSprint line else line
  let l2 := if startsWithL ['@', '@'] trimmed then headerSprint l1 else l1
  if startsWithL ['+', '+', '+'] trimmed || startsWithL ['+', ' '] trimmed
  then greenSprint l2 else l2

/-- The diff renderer `prettyDiff(diff, noColor)` of the `Runner` variant:
unchanged text when colour is disabled, otherwise the per-line
recolouring applied to each `\n`-separated line and rejoined. -/
def prettyDiff (diffText : Bytes) (noColor : Bool) : Bytes :=
  if noColor then diffText
  else joinNL ((splitNL diffText).map colourLine)

/-- The renderer line classification exactly as the claim words it: the
LEADING-whitespace-trimmed form of the line decides the role, first
matching role winning. Written for comparison with `colourLine`, which is
translated from the source. -/
def renderLineClaim (line : Bytes) : Bytes :=
  let trimmed := line.dropWhile isSpaceGo
  if startsWithL ['-', '-', '-'] trimmed || startsWithL ['-', ' '] trimmed
  then redSprint line
  else if startsWithL ['+', '+', '+'] trimmed || startsWithL ['+', ' '] trimmed
  then greenSprint line
  else if startsWithL ['@', '@'] trimmed then headerSprint line
  else line

/-- The renderer exactly as the claim words it, built on
`renderLineClaim`. -/
def renderClaim (diffText : Bytes) (noColor : Bool) : Bytes :=
  if noColor then diffText
  else joinNL ((splitNL diffText).map renderLineClaim)

/-- The per-line renderer under the amended wording: the line role is
decided by the whitespace-trimmed form (trimmed on BOTH ends, as
`strings.TrimSpace` does), first matching role winning. -/
def renderLineAmended (line : Bytes) : Bytes :=
  let trimmed := trimSpaceGo line
  if startsWithL ['-', '-', '-'] trimmed || startsWithL ['-', ' '] trimmed
  then redSprint line
  else if startsWithL ['+', '+', '+'] trimmed || startsWithL ['+', ' '] trimmed
  then greenSprint line
  else if startsWithL ['@', '@'] trimmed then headerSprint line
  else line

/-- The renderer under the amended wording, built on
`renderLineAmended`. -/
def renderAmended (diffText : Bytes) (noColor : Bool) : Bytes :=
  if noColor then diffText
  else joinNL ((splitNL diffText).map renderLineAmended)

/-- The comparison outcome of one `Snap` invocation. `mismatched` and
`fatalError` carry the `tb.Fatalf` message and are the only failing
outcomes. -/
inductive Outcome where
  | created
  | updated
  | matched
  | mismatched (message : Bytes)
  | fatalError (message : Bytes)
  deriving DecidableEq

/-- Whether an outcome passes the test (no `tb.Fatalf` was issued). -/
def Outcome.passes : Outcome → Bool
  | .created => true
  | .updated => true
  | .matched => true
  | .mismatched _ => false
  | .fatalError _ => false

/-- The snapshot test `Runner`, generic over the type of values the
configured formatter accepts: the test identity (`tb.Name()`), the
formatter (its `Format` method and `Ext()` extension), the registered
filters, and the `update`, `clean` and `noColor` flags. -/
structure Runner (α : Type) where
  name : Bytes
  ext : Bytes
  format : α → Except Bytes Bytes
  filters : List Filter
  update : Bool
  clean : Bool
  noColor : Bool

/-- The path deriver `Runner.Path`:
`filepath.Join("testdata", "snapshots", name + ext)`, with `/`-separated
identity segments becoming nested components. -/
def Runner.path {α : Type} (r : Runner α) : Path :=
  "testdata".data :: "snapshots".data :: splitSlash (r.name ++ r.ext)

/-- The update notice logged via `tb.Logf` when the update flag is set. -/
def updateNotice (p : Path) : Bytes :=
  "Snap: updating snapshot ".data ++ joinPath p ++ ['\n']

/-- The `tb.Fatalf` message of the mismatch branch,
`"\nMismatch\n--------\n%s\n"` applied to the rendered diff. -/
def mismatchMsg (rendered : Bytes) : Bytes :=
  "\nMismatch\n--------\n".data ++ rendered ++ ['\n']

/-- The result of one `Snap` invocation: the store afterwards, the
outcome, and the `tb.Logf` messages emitted. -/
structure SnapResult where
  fs : FS
  outcome : Outcome
  logs : List Bytes
  deriving DecidableEq

/-- The comparator state machine `Runner.Snap`, translated from the
source: derive the path and its directory; if `clean` is set remove that
directory subtree; check existence; format the value and apply the
filters; if no prior artifact exists or `update` is set, create the
directories and write the filtered bytes (logging the update notice when
updating); otherwise read the stored artifact, normalise its CRLF line
endings, and diff it against the fresh filtered bytes, passing on no diff
and failing with the rendered diff otherwise. -/
def Runner.snap {α : Type} (r : Runner α) (v : α) (fs0 : FS) : SnapResult :=
  let path := r.path
  let dir := path.dropLast
  let fs1 := if r.clean then removeAll fs0 dir else fs0
  match fileExists fs1 path with
  | .error e => ⟨fs1, .fatalError ("Snap: ".data ++ e), []⟩
  | .ok ex =>
    match r.format v with
    | .error e => ⟨fs1, .fatalError ("Snap: ".data ++ e), []⟩
    | .ok raw =>
      let content := applyFilters r.filters raw
      if !ex || r.update then
        let fs2 := mkdirAll fs1 dir
        let fs3 := writeFile fs2 path content
        ⟨fs3, if r.update then .updated else .created,
          if r.update then [updateNotice path] else []⟩
      else
        match lookupFile fs1.files path with
        | none => ⟨fs1, .fatalError "Snap: could not read previous snapshot".data, []⟩
        | some prev =>
          let old := normCRLF prev
          match diffModel "old".data old "new".data content with
          | none => ⟨fs1, .matched, []⟩
          | some d => ⟨fs1, .mismatched (mismatchMsg (prettyDiff d r.noColor)), []⟩

/-! ### Concrete fixtures for witnesses -/

/-- A concrete runner: identity `Test/sub`, the plain-text extension, the
identity formatter on byte strings, no filters, colour disabled, and the
update/clean flags as given. -/
def mkRunner (upd cln : Bool) : Runner Bytes :=
  ⟨"Test/sub".data, ".snap.txt".data, fun v => .ok v, [], upd, cln, true⟩

/-- The derived path of the fixture identity,
`testdata/snapshots/Test/sub.snap.txt`. -/
def pSub : Path := (mkRunner false false).path

/-- A fixture store holding a prior artifact for the fixture identity,
with its parent directories present. -/
def fsWith (content : Bytes) : FS :=
  ⟨[(pSub, content)], ancestorsOf pSub.dropLast⟩

/-- The empty fixture store. -/
def fsEmpty : FS := ⟨[], []⟩

/-- A concrete filter replacing every `a` with `*`. -/
def starFilter : Filter := ⟨List.map fun c => if c = 'a' then '*' else c⟩

/-- A concrete filter replacing every `*` with `+`. -/
def plusFilter : Filter := ⟨List.map fun c => if c = '*' then '+' else c⟩

/-- The fixture runner with the two concrete filters registered in
order. -/
def rFil : Runner Bytes :=
  ⟨"Test/sub".data, ".snap.txt".data, fun v => .ok v,
    [starFilter, plusFilter], false, false, true⟩

/-- The path of an artifact belonging to a different test identity,
outside the fixture identity's directory. -/
def pOther : Path := ["testdata".data, "snapshots".data, "Other.snap.txt".data]

/-- A fixture store holding artifacts for both the fixture identity and
the unrelated identity. -/
def fsTwo : FS :=
  ⟨[(pSub, "old".data), (pOther, "other".data)], ancestorsOf pSub.dropLast⟩

/-! ### Helper lemmas about the store and the renderer -/

theorem lookupFile_removeAll_ne (files : List (Path × Bytes)) (d q : Path)
    (h : leadsTo d q = false) :
    lookupFile (files.filter fun kv => !leadsTo d kv.1) q = lookupFile files q := by
  induction files with
  | nil => rfl
  | cons kv rest ih =>
    rw [List.filter_cons]
    cases hk : leadsTo d kv.1 with
    | false =>
      by_cases hq : kv.1 = q
      · simp [lookupFile, hq]
      · simp [lookupFile, hq, ih]
    | true =>
      have hq : kv.1 ≠ q := by
        intro he
        rw [he, h] at hk
        cases hk
      simp only [Bool.not_true, Bool.false_eq_true, if_false]
      rw [ih, lookupFile, if_neg hq]

theorem lookupFile_removeAll_none (files : List (Path × Bytes)) (d q : Path)
    (h : leadsTo d q = true) :
    lookupFile (files.filter fun kv => !leadsTo d kv.1) q = none := by
  induction files with
  | nil => rfl
  | cons kv rest ih =>
    rw [List.filter_cons]
    cases hk : leadsTo d kv.1 with
    | false =>
      have hq : kv.1 ≠ q := by
        intro he
        rw [he, h] at hk
        cases hk
      simp only [Bool.not_false, if_true]
      rw [lookupFile, if_neg hq, ih]
    | true =>
      simp only [Bool.not_true, Bool.false_eq_true, if_false]
      exact ih

theorem containsPath_removeAll_false (dirs : List Path) (d q : Path)
    (h : leadsTo d q = true) :
    containsPath (dirs.filter fun x => !leadsTo d x) q = false := by
  induction dirs with
  | nil => rfl
  | cons x rest ih =>
    rw [List.filter_cons]
    cases hx : leadsTo d x with
    | false =>
      have hq : x ≠ q := by
        intro he
        rw [he, h] at hx
        cases hx
      simp only [Bool.not_false, if_true]
      rw [containsPath, if_neg hq, ih]
    | true =>
      simp only [Bool.not_true, Bool.false_eq_true, if_false]
      exact ih

theorem leadsTo_dropLast (a : Bytes) (l : Path) :
    leadsTo ((a :: l).dropLast) (a :: l) = true := by
  induction l generalizing a with
  | nil => rfl
  | cons b rest ih => simpa [List.dropLast, leadsTo] using ih b

theorem containsPath_append_left (xs ys : List Path) (q : Path)
    (h : containsPath xs q = true) :
    containsPath (xs ++ ys) q = true := by
  induction xs with
  | nil => simp [containsPath] at h
  | cons x rest ih =>
    rw [List.cons_append, containsPath]
    rw [containsPath] at h
    by_cases hx : x = q
    · rw [if_pos hx]
    · rw [if_neg hx] at h ⊢
      exact ih h

theorem containsPath_map_cons (c : Bytes) (l : List Path) (x : Path) :
    containsPath (l.map (c :: ·)) (c :: x) = containsPath l x := by
  induction l with
  | nil => rfl
  | cons y rest ih =>
    rw [List.map_cons, containsPath, containsPath]
    by_cases hy : y = x
    · rw [if_pos hy, if_pos (by rw [hy])]
    · rw [if_neg hy, if_neg (fun hc => hy (List.cons_injective hc)), ih]

theorem containsPath_ancestors (d q : Path) (h : leadsTo q d = true) :
    containsPath (ancestorsOf d) q = true := by
  induction q generalizing d with
  | nil =>
    cases d with
    | nil => rfl
    | cons c rest => simp [ancestorsOf, containsPath]
  | cons a as ih =>
    cases d with
    | nil => simp [leadsTo] at h
    | cons b bs =>
      by_cases hab : a = b
      · subst hab
        rw [leadsTo, if_pos rfl] at h
        have hne : ([] : Path) ≠ a :: as := by simp
        rw [ancestorsOf, containsPath, if_neg hne, containsPath_map_cons]
        exact ih bs h
      · rw [leadsTo, if_neg hab] at h
        exact absurd h (by simp)

theorem colourLine_eq_renderLineAmended (line : Bytes) :
    colourLine line = renderLineAmended line := by
  simp only [colourLine, renderLineAmended]
  cases htr : trimSpaceGo line with
  | nil => simp [startsWithL]
  | cons c cs =>
    by_cases h1 : c = '-'
    · subst h1
      simp [startsWithL]
    · by_cases h2 : c = '@'
      · subst h2
        simp [startsWithL]
      · by_cases h3 : c = '+'
        · subst h3
          simp [startsWithL]
        · have h1s : ¬('-' : Char) = c := fun hx => h1 hx.symm
          have h2s : ¬('@' : Char) = c := fun hx => h2 hx.symm
          have h3s : ¬('+' : Char) = c := fun hx => h3 hx.symm
          simp [startsWithL, h1s, h2s, h3s]

theorem fileExists_of_lookup {fs : FS} {p : Path} {b : Bytes}
    (h : lookupFile fs.files p = some b) : fileExists fs p = .ok true := by
  simp [fileExists, h]

theorem snap_unfold_write {α : Type} (r : Runner α) (v : α) (fs : FS)
    (raw : Bytes) (ex : Bool)
    (hcln : r.clean = false) (hfmt : r.format v = .ok raw)
    (hfe : fileExists fs r.path = .ok ex) (hbr : (!ex || r.update) = true) :
    r.snap v fs =
      ⟨writeFile (mkdirAll fs r.path.dropLast) r.path (applyFilters r.filters raw),
        if r.update then .updated else .created,
        if r.update then [updateNotice r.path] else []⟩ := by
  unfold Runner.snap
  simp only [hcln, Bool.false_eq_true, if_false, hfe, hfmt, hbr, if_true]

theorem snap_unfold_compare {α : Type} (r : Runner α) (v : α) (fs : FS)
    (raw prev : Bytes)
    (hcln : r.clean = false) (hupd : r.update = false)
    (hprev : lookupFile fs.files r.path = some prev)
    (hfmt : r.format v = .ok raw) :
    r.snap v fs =
      match diffModel "old".data (normCRLF prev) "new".data
          (applyFilters r.filters raw) with
      | none => ⟨fs, .matched, []⟩
      | some d => ⟨fs, .mismatched (mismatchMsg (prettyDiff d r.noColor)), []⟩ := by
  unfold Runner.snap
  simp only [hcln, Bool.false_eq_true, if_false, fileExists_of_lookup hprev, hfmt,
    hupd, Bool.not_true, Bool.or_false, hprev]

/-! ### Claim theorems -/

/-- C1. The serialization strategy is chosen by fixed priority with the
first matching capability winning: custom snapshot, then structured
(JSON-like) marshal rendered indented, then marshal-to-text, then
stringify, then the primitive-scalar rendering, then the generic fallback
(which alone logs a warning). In particular a value implementing both the
custom snapshot capability and stringify resolves to the custom snapshot
bytes, never the stringified form. -/
theorem resolver_priority :
    (∀ (fl : List Filter) (v : GoValue), doSnapshot fl v = resolveSpec fl v) ∧
    (∀ (fl : List Filter) (v : GoValue) (b s : Bytes),
        v.snapper = some (.ok b) →
        doSnapshot fl { v with stringer := some s } =
          .ok (applyFilters fl (normCRLF b), false)) := by
  constructor
  · intro fl v
    rcases hs : v.snapper with _ | (e1 | b1) <;>
      rcases hj : v.jsonMarshaler with _ | (e2 | b2) <;>
        rcases ht : v.textMarshaler with _ | (e3 | b3) <;>
          rcases hst : v.stringer with _ | s <;>
            rcases hp : v.primitive with _ | p <;>
              simp [doSnapshot, resolveSpec, hs, hj, ht, hst, hp]
  · intro fl v b s h
    simp [doSnapshot, h]

/-- C1 witness: a concrete value exposing both a custom snapshot
capability and stringify resolves to the custom snapshot bytes. -/
theorem resolver_priority_witness :
    (GoValue.mk (some (.ok "custom snap yeah!\n".data)) none none none none
        "gostring".data).snapper = some (.ok "custom snap yeah!\n".data) ∧
    doSnapshot []
        { GoValue.mk (some (.ok "custom snap yeah!\n".data)) none none none none
            "gostring".data with stringer := some "stringed".data } =
      .ok (applyFilters [] (normCRLF "custom snap yeah!\n".data), false) :=
  ⟨rfl, resolver_priority.2 []
    (GoValue.mk (some (.ok "custom snap yeah!\n".data)) none none none none
      "gostring".data) "custom snap yeah!\n".data "stringed".data rfl⟩

/-- C9. A raw byte-sequence value exposing none of the higher-priority
capabilities is rendered through the primitive-scalar branch with its
natural (bracketed decimal) representation, in both the `SnapShotter.do`
resolver (with the fallback-warning flag false, so no warning is logged)
and the plain-text formatter. -/
theorem bytes_primitive_branch (fl : List Filter) (v : GoValue) (bs : List Nat)
    (h1 : v.snapper = none) (h2 : v.jsonMarshaler = none)
    (h3 : v.textMarshaler = none) (h4 : v.stringer = none)
    (h5 : v.primitive = some (.bytesV bs)) :
    doSnapshot fl v = .ok (applyFilters fl (normCRLF (renderPrim (.bytesV bs))), false) ∧
    textFormat v = .ok (renderPrim (.bytesV bs)) ∧
    renderPrim (.bytesV bs) = '[' :: spaceSep bs ++ [']'] := by
  refine ⟨?_, ?_, rfl⟩
  · simp [doSnapshot, h1, h2, h3, h4, h5]
  · simp [textFormat, h3, h4, h5]

/-- C9 witness: the byte slice `[104, 105]` renders as `[104 105]` through
the primitive branch, with no fallback warning. -/
theorem bytes_primitive_branch_witness :
    (GoValue.mk none none none none (some (.bytesV [104, 105]))
        "gostring".data).primitive = some (.bytesV [104, 105]) ∧
    doSnapshot [] (GoValue.mk none none none none (some (.bytesV [104, 105]))
        "gostring".data) = .ok ("[104 105]".data, false) := by
  refine ⟨rfl, ?_⟩
  have h := bytes_primitive_branch [] (GoValue.mk none none none none
    (some (.bytesV [104, 105])) "gostring".data) [104, 105] rfl rfl rfl rfl rfl
  rw [h.1]
  rfl

/-- C8 counterexample: on the diff line consisting of a dash and a space,
the source renderer leaves the line unchanged (its `strings.TrimSpace`
classification trims the trailing space away so no role matches), while
the claim's leading-whitespace-trimmed classification recolours it red. -/
theorem renderer_claim_counterexample :
    prettyDiff ['-', ' '] false = ['-', ' '] ∧
    renderClaim ['-', ' '] false = redSprint ['-', ' '] ∧
    redSprint ['-', ' '] ≠ ['-', ' '] := by decide

/-- C8 (amended). The diff renderer returns the text unchanged when
colour is disabled; otherwise it splits on newlines, recolours each line
whose whitespace-trimmed form (trimmed on both ends) starts with the
removal, addition or header markers, leaves every other line unchanged,
and rejoins with newlines — the first matching role winning. -/
theorem renderer_classification (d : Bytes) (noColor : Bool) :
    prettyDiff d noColor = renderAmended d noColor := by
  cases noColor with
  | true => rfl
  | false =>
    have hf : colourLine = renderLineAmended := funext colourLine_eq_renderLineAmended
    simp [prettyDiff, renderAmended, hf]

/-- C2. With the update flag enabled and a prior artifact present,
regardless of the prior content, the invocation yields Updated (a pass),
logs the update notice, and the stored artifact afterwards equals the
freshly serialized, filtered bytes of the current value. -/
theorem snap_update_overwrites {α : Type} (r : Runner α) (v : α) (fs : FS)
    (prev raw : Bytes)
    (hupd : r.update = true) (hcln : r.clean = false)
    (hprev : lookupFile fs.files r.path = some prev)
    (hfmt : r.format v = .ok raw) :
    (r.snap v fs).outcome = .updated ∧
    ((r.snap v fs).outcome).passes = true ∧
    (r.snap v fs).logs = [updateNotice r.path] ∧
    lookupFile (r.snap v fs).fs.files r.path = some (applyFilters r.filters raw) := by
  have hw := snap_unfold_write r v fs raw true hcln hfmt
    (fileExists_of_lookup hprev) (by rw [hupd]; simp)
  rw [hw]
  refine ⟨by simp [hupd], by simp [hupd, Outcome.passes], by simp [hupd], ?_⟩
  simp [writeFile, mkdirAll, lookupFile]

/-- C2 witness: updating over a mismatching prior artifact passes with
outcome Updated and stores the fresh bytes. -/
theorem snap_update_overwrites_witness :
    lookupFile (fsWith "Something else".data).files (mkRunner true false).path =
      some "Something else".data ∧
    ((mkRunner true false).snap "Hello Snapshot".data
        (fsWith "Something else".data)).outcome = .updated ∧
    lookupFile ((mkRunner true false).snap "Hello Snapshot".data
        (fsWith "Something else".data)).fs.files (mkRunner true false).path =
      some (applyFilters (mkRunner true false).filters "Hello Snapshot".data) := by
  have h := snap_update_overwrites (mkRunner true false) "Hello Snapshot".data
    (fsWith "Something else".data) "Something else".data "Hello Snapshot".data
    rfl rfl (by decide) rfl
  exact ⟨by decide, h.1, h.2.2.2⟩

/-- C7. On comparison the stored artifact is read with every CRLF
replaced by LF; a stored artifact that equals the fresh filtered bytes up
to that normalization yields Matched and the store is untouched. -/
theorem snap_crlf_normalised {α : Type} (r : Runner α) (v : α) (fs : FS)
    (prev raw : Bytes)
    (hupd : r.update = false) (hcln : r.clean = false)
    (hprev : lookupFile fs.files r.path = some prev)
    (hfmt : r.format v = .ok raw)
    (hn : normCRLF prev = applyFilters r.filters raw) :
    (r.snap v fs).outcome = .matched ∧ (r.snap v fs).fs = fs := by
  have hc := snap_unfold_compare r v fs raw prev hcln hupd hprev hfmt
  rw [hc, hn]
  simp [diffModel]

/-- C7 witness: a stored artifact with CRLF line endings matches the same
content with LF line endings. -/
theorem snap_crlf_normalised_witness :
    normCRLF "a\r\nb\r\n".data =
      applyFilters (mkRunner false false).filters "a\nb\n".data ∧
    ((mkRunner false false).snap "a\nb\n".data
        (fsWith "a\r\nb\r\n".data)).outcome = .matched := by
  have h := snap_crlf_normalised (mkRunner false false) "a\nb\n".data
    (fsWith "a\r\nb\r\n".data) "a\r\nb\r\n".data "a\nb\n".data
    rfl rfl (by decide) rfl (by decide)
  exact ⟨by decide, h.1⟩

/-- C6. Without update, with a prior artifact whose normalized bytes
differ from the fresh filtered bytes, the test fails with outcome
Mismatched whose message embeds the rendered diff, and the diff text
carries both the (normalized) stored content and the current content;
when they agree the test passes with Matched. -/
theorem snap_mismatch_fails {α : Type} (r : Runner α) (v : α) (fs : FS)
    (prev raw : Bytes)
    (hupd : r.update = false) (hcln : r.clean = false)
    (hprev : lookupFile fs.files r.path = some prev)
    (hfmt : r.format v = .ok raw) :
    (normCRLF prev ≠ applyFilters r.filters raw →
      ∃ dtext,
        diffModel "old".data (normCRLF prev) "new".data
            (applyFilters r.filters raw) = some dtext ∧
        (r.snap v fs).outcome = .mismatched (mismatchMsg (prettyDiff dtext r.noColor)) ∧
        ((r.snap v fs).outcome).passes = false ∧
        (∃ x y, dtext = x ++ normCRLF prev ++ y) ∧
        (∃ x y, dtext = x ++ applyFilters r.filters raw ++ y)) ∧
    (normCRLF prev = applyFilters r.filters raw →
      (r.snap v fs).outcome = .matched ∧ ((r.snap v fs).outcome).passes = true) := by
  have hc := snap_unfold_compare r v fs raw prev hcln hupd hprev hfmt
  constructor
  · intro hne
    refine ⟨"--- ".data ++ "old".data ++ '\n' :: "+++ ".data ++ "new".data ++
      '\n' :: "- ".data ++ normCRLF prev ++ '\n' :: "+ ".data ++
      applyFilters r.filters raw ++ ['\n'], ?_, ?_, ?_, ?_, ?_⟩
    · simp [diffModel, hne]
    · rw [hc]
      simp [diffModel, hne]
    · rw [hc]
      simp [diffModel, hne, Outcome.passes]
    · exact ⟨"--- ".data ++ "old".data ++ '\n' :: "+++ ".data ++ "new".data ++
        '\n' :: "- ".data,
        '\n' :: "+ ".data ++ applyFilters r.filters raw ++ ['\n'], by simp⟩
    · refine ⟨"--- ".data ++ "old".data ++ '\n' :: "+++ ".data ++ "new".data ++
        '\n' :: "- ".data ++ normCRLF prev ++ '\n' :: "+ ".data, ['\n'], by simp⟩
  · intro heq
    rw [hc, heq]
    simp [diffModel, Outcome.passes]

/-- C6 witness: the spec scenario — identity `Test/sub`, prior artifact
`Something else`, value `Hello Snapshot`, update disabled — fails as
Mismatched and the diff text carries both contents. -/
theorem snap_mismatch_fails_witness :
    normCRLF "Something else".data ≠
      applyFilters (mkRunner false false).filters "Hello Snapshot".data ∧
    ((mkRunner false false).snap "Hello Snapshot".data
        (fsWith "Something else".data)).outcome ≠ .matched ∧
    (∃ dtext,
      diffModel "old".data (normCRLF "Something else".data) "new".data
          (applyFilters (mkRunner false false).filters "Hello Snapshot".data) =
        some dtext ∧
      (∃ x y, dtext = x ++ normCRLF "Something else".data ++ y) ∧
      (∃ x y, dtext = x ++
        applyFilters (mkRunner false false).filters "Hello Snapshot".data ++ y)) := by
  have h := snap_mismatch_fails (mkRunner false false) "Hello Snapshot".data
    (fsWith "Something else".data) "Something else".data "Hello Snapshot".data
    rfl rfl (by decide) rfl
  have hne : normCRLF "Something else".data ≠
      applyFilters (mkRunner false false).filters "Hello Snapshot".data := by decide
  obtain ⟨dtext, hd, hout, hpass, hx, hy⟩ := h.1 hne
  refine ⟨hne, ?_, dtext, hd, hx, hy⟩
  rw [hout]
  intro hcontra
  cases hcontra

/-- C3 counterexample: a deterministic serialization containing a CRLF
refutes create-then-match as stated — the first invocation yields Created
and stores the bytes verbatim, but the second reads them back
CRLF-normalized while the fresh bytes keep the CRLF, so the second
invocation does not yield Matched. -/
theorem create_then_match_counterexample :
    ((mkRunner false false).snap "a\r\nb".data fsEmpty).outcome = .created ∧
    ((mkRunner false false).snap "a\r\nb".data
        (((mkRunner false false).snap "a\r\nb".data fsEmpty).fs)).outcome ≠
      .matched := by decide

/-- C3 (amended). For a fresh identity and a deterministic serialization
whose filtered bytes contain no CRLF sequence, the first invocation
without update/clean yields Created and writes the filtered bytes, and a
second invocation with an identical value yields Matched without
modifying the store. -/
theorem snap_create_then_match {α : Type} (r : Runner α) (v : α) (fs : FS)
    (raw : Bytes)
    (hupd : r.update = false) (hcln : r.clean = false)
    (hlook : lookupFile fs.files r.path = none)
    (hdir : containsPath fs.dirs r.path = false)
    (hfmt : r.format v = .ok raw)
    (hcrlf : normCRLF (applyFilters r.filters raw) = applyFilters r.filters raw) :
    (r.snap v fs).outcome = .created ∧
    lookupFile (r.snap v fs).fs.files r.path = some (applyFilters r.filters raw) ∧
    (r.snap v ((r.snap v fs).fs)).outcome = .matched ∧
    (r.snap v ((r.snap v fs).fs)).fs = (r.snap v fs).fs := by
  have hfe : fileExists fs r.path = .ok false := by simp [fileExists, hlook, hdir]
  have hw := snap_unfold_write r v fs raw false hcln hfmt hfe (by simp)
  have hlook2 : lookupFile ((r.snap v fs).fs).files r.path =
      some (applyFilters r.filters raw) := by
    rw [hw]
    simp [writeFile, mkdirAll, lookupFile]
  have hc := snap_unfold_compare r v ((r.snap v fs).fs) raw
    (applyFilters r.filters raw) hcln hupd hlook2 hfmt
  rw [hc, hcrlf]
  refine ⟨by rw [hw]; simp [hupd], hlook2, ?_, ?_⟩ <;> simp [diffModel]

/-- C3 witness: a fresh identity snapping `Hello Snapshot` twice yields
Created and then Matched. -/
theorem snap_create_then_match_witness :
    lookupFile fsEmpty.files (mkRunner false false).path = none ∧
    normCRLF (applyFilters (mkRunner false false).filters "Hello Snapshot".data) =
      applyFilters (mkRunner false false).filters "Hello Snapshot".data ∧
    ((mkRunner false false).snap "Hello Snapshot".data fsEmpty).outcome = .created ∧
    ((mkRunner false false).snap "Hello Snapshot".data
        (((mkRunner false false).snap "Hello Snapshot".data fsEmpty).fs)).outcome =
      .matched := by
  have h := snap_create_then_match (mkRunner false false) "Hello Snapshot".data
    fsEmpty "Hello Snapshot".data rfl rfl rfl rfl rfl (by decide)
  exact ⟨rfl, by decide, h.1, h.2.2.1⟩

/-- C4. Filters apply in registration order, later filters operating on
the output of earlier ones (the pipeline is the left fold of the
registered list), and the same filtered bytes are what gets persisted in
the create/update branch and what gets compared against the stored
artifact in the compare branch. -/
theorem filter_pipeline :
    (∀ (f : Filter) (fl : List Filter) (b : Bytes),
        applyFilters (f :: fl) b = applyFilters fl (f.apply b)) ∧
    (∀ (fl gl : List Filter) (b : Bytes),
        applyFilters (fl ++ gl) b = applyFilters gl (applyFilters fl b)) ∧
    (∀ (α : Type) (r : Runner α) (v : α) (fs : FS) (raw : Bytes),
        r.clean = false → r.format v = .ok raw →
        (lookupFile fs.files r.path = none → containsPath fs.dirs r.path = false →
          lookupFile (r.snap v fs).fs.files r.path =
            some (applyFilters r.filters raw)) ∧
        (∀ prev, r.update = false → lookupFile fs.files r.path = some prev →
          ((r.snap v fs).outcome = .matched ↔
            normCRLF prev = applyFilters r.filters raw))) := by
  refine ⟨fun f fl b => rfl, fun fl gl b => by simp [applyFilters],
    fun α r v fs raw hcln hfmt => ⟨?_, ?_⟩⟩
  · intro hlook hdir
    have hfe : fileExists fs r.path = .ok false := by simp [fileExists, hlook, hdir]
    have hw := snap_unfold_write r v fs raw false hcln hfmt hfe (by simp)
    rw [hw]
    simp [writeFile, mkdirAll, lookupFile]
  · intro prev hupd hprev
    have hc := snap_unfold_compare r v fs raw prev hcln hupd hprev hfmt
    by_cases heq : normCRLF prev = applyFilters r.filters raw
    · rw [hc]
      simp [diffModel, heq]
    · rw [hc]
      simp [diffModel, heq]

/-- C4 witness: the two concrete filters compose in registration order
(`a` to `*`, then `*` to `+`), the persisted artifact carries the
filtered bytes, and comparison is against the same filtered bytes. -/
theorem filter_pipeline_witness :
    applyFilters [starFilter, plusFilter] "abc".data = "+bc".data ∧
    lookupFile ((rFil.snap "abc".data fsEmpty).fs).files rFil.path =
      some (applyFilters rFil.filters "abc".data) ∧
    ((rFil.snap "abc".data (fsWith "+bc".data)).outcome = .matched ↔
      normCRLF "+bc".data = applyFilters rFil.filters "abc".data) := by
  have h1 := filter_pipeline.2.2 Bytes rFil "abc".data fsEmpty "abc".data rfl rfl
  have h2 := filter_pipeline.2.2 Bytes rFil "abc".data (fsWith "+bc".data)
    "abc".data rfl rfl
  exact ⟨by decide, h1.1 rfl rfl, h2.2 "+bc".data rfl (by decide)⟩

/-- C5. With the clean flag set the invocation equals running without
clean on the store with the identity's derived directory subtree removed
(clean happens once, up front, before the existence check), the existence
check then reports no prior artifact, and files outside that directory
subtree are untouched by the whole invocation. -/
theorem snap_clean_scoped {α : Type} (r : Runner α) (v : α) (fs : FS)
    (hcln : r.clean = true) :
    r.snap v fs =
      Runner.snap { r with clean := false } v (removeAll fs r.path.dropLast) ∧
    fileExists (removeAll fs r.path.dropLast) r.path = .ok false ∧
    (∀ q, leadsTo r.path.dropLast q = false →
      lookupFile (r.snap v fs).fs.files q = lookupFile fs.files q) := by
  have hled : leadsTo r.path.dropLast r.path = true :=
    leadsTo_dropLast "testdata".data ("snapshots".data :: splitSlash (r.name ++ r.ext))
  have h2 : fileExists (removeAll fs r.path.dropLast) r.path = .ok false := by
    have ha := lookupFile_removeAll_none fs.files r.path.dropLast r.path hled
    have hb := containsPath_removeAll_false fs.dirs r.path.dropLast r.path hled
    simp [fileExists, removeAll, ha, hb]
  refine ⟨?_, h2, ?_⟩
  · have hpath : (Runner.path { r with clean := false } : Path) = r.path := rfl
    unfold Runner.snap
    simp [hcln, hpath]
  · intro q hq
    have hne : r.path ≠ q := by
      intro he
      have hcontra : leadsTo r.path.dropLast q = true := he ▸ hled
      rw [hq] at hcontra
      cases hcontra
    unfold Runner.snap
    simp only [hcln, if_true]
    rw [h2]
    rcases hf : r.format v with e | raw
    · simp only
      exact lookupFile_removeAll_ne fs.files _ q hq
    · simp only [Bool.not_false, Bool.true_or, if_true]
      show lookupFile ((r.path, _) :: (removeAll fs r.path.dropLast).files) q = _
      rw [lookupFile, if_neg hne]
      exact lookupFile_removeAll_ne fs.files _ q hq

/-- C5 witness: cleaning the `Test/sub` identity leaves the artifact of
the unrelated identity `Other` untouched, and the post-clean existence
check reports no prior artifact. -/
theorem snap_clean_scoped_witness :
    (mkRunner false true).clean = true ∧
    leadsTo ((mkRunner false true).path.dropLast) pOther = false ∧
    lookupFile ((mkRunner false true).snap "hi".data fsTwo).fs.files pOther =
      lookupFile fsTwo.files pOther ∧
    fileExists (removeAll fsTwo ((mkRunner false true).path.dropLast))
      (mkRunner false true).path = .ok false := by
  have h := snap_clean_scoped (mkRunner false true) "hi".data fsTwo rfl
  exact ⟨rfl, by decide, h.2.2 pOther (by decide), h.2.1⟩

/-- C10. With update enabled and no prior artifact, the invocation does
not fail: it yields Updated (a pass), stores the fresh filtered bytes,
and all missing parent directories of the derived path now exist. -/
theorem snap_update_creates {α : Type} (r : Runner α) (v : α) (fs : FS)
    (raw : Bytes)
    (hupd : r.update = true) (hcln : r.clean = false)
    (hlook : lookupFile fs.files r.path = none)
    (hdir : containsPath fs.dirs r.path = false)
    (hfmt : r.format v = .ok raw) :
    ((r.snap v fs).outcome).passes = true ∧
    (r.snap v fs).outcome = .updated ∧
    lookupFile (r.snap v fs).fs.files r.path = some (applyFilters r.filters raw) ∧
    ∀ q, leadsTo q r.path.dropLast = true →
      containsPath (r.snap v fs).fs.dirs q = true := by
  have hfe : fileExists fs r.path = .ok false := by simp [fileExists, hlook, hdir]
  have hw := snap_unfold_write r v fs raw false hcln hfmt hfe (by simp)
  rw [hw]
  refine ⟨by simp [hupd, Outcome.passes], by simp [hupd],
    by simp [writeFile, mkdirAll, lookupFile], ?_⟩
  intro q hq
  show containsPath (ancestorsOf r.path.dropLast ++ fs.dirs) q = true
  exact containsPath_append_left _ _ _ (containsPath_ancestors _ _ hq)

/-- C10 witness: updating a fresh identity passes as Updated, stores the
bytes, and creates the parent directory chain. -/
theorem snap_update_creates_witness :
    lookupFile fsEmpty.files (mkRunner true false).path = none ∧
    ((mkRunner true false).snap "hi".data fsEmpty).outcome = .updated ∧
    lookupFile ((mkRunner true false).snap "hi".data fsEmpty).fs.files
      (mkRunner true false).path =
      some (applyFilters (mkRunner true false).filters "hi".data) ∧
    containsPath ((mkRunner true false).snap "hi".data fsEmpty).fs.dirs
      ((mkRunner true false).path.dropLast) = true := by
  have h := snap_update_creates (mkRunner true false) "hi".data fsEmpty "hi".data
    rfl rfl rfl rfl rfl
  refine ⟨rfl, h.2.1, h.2.2.1, h.2.2.2 _ ?_⟩
  decide

end Snapshot
